import Mathlib

/-!
# GroupsService: a shallow embedding

The service of `src/groups/service.js` is embedded over an explicit model of
its persistence collaborator.  The collaborator (the object-relational handles
`groups`, `users`, `userGroup` and the transaction object of `sequelize`) is
not part of the repository; it is modelled as an in-memory store of three
tables with

* a committed state `db` and the working copy `tx` of an open transaction,
* a fault schedule `fails`: the call issued when the log holds `k` entries
  throws exactly when `fails k` holds, and a call that throws has no effect on
  the tables,
* a `log` of every persistence call issued, with its arguments and outcome,
* eager loading of the users of a group through the relation table: the
  selected user attributes are returned, and the join-table object comes with
  them unless the query passes empty `through` attributes.

JavaScript objects returned by the service are kept as key/value lists, so
that a record with a missing or a misplaced key is representable.  A service
method `m` run in world `w` yields `m w : Outcome Result × World`: what the
caller receives (a value or a thrown error) and the world afterwards.
-/

set_option autoImplicit false

namespace GroupsService

/-! ## constants.js -/

namespace CODES

def SUCCESS : String := "SUCCESS"
def NOT_FOUND : String := "NOT_FOUND"
def BAD_DATA : String := "BAD_DATA"
def SOMETHING_WENT_WRONG : String := "SOMETHING_WENT_WRONG"
def DEFAULT : String := "SOMETHING_WENT_WRONG"

end CODES

/-! ## Rows of the three tables -/

abbrev Permissions := List String

structure Group where
  id : Nat
  name : String
  permissions : Permissions
deriving DecidableEq, Repr

structure User where
  id : Nat
  login : String
  age : Nat
deriving DecidableEq, Repr

structure UserGroupRelation where
  userId : Nat
  groupId : Nat
deriving DecidableEq, Repr

/-- The committed contents of the database: three tables and the counter the
`groups` table draws fresh primary keys from. -/
structure Store where
  groups : List Group
  users : List User
  userGroup : List UserGroupRelation
  nextId : Nat
deriving DecidableEq, Repr

/-! ## Query options -/

/-- The `through` option of an include: which join-table attributes to load. -/
structure ThroughOptions where
  attributes : List String
deriving DecidableEq, Repr

/-- One entry of the `include` list of a query (the included model is always
the users handle in this service). -/
structure Include where
  as : String
  required : Bool
  attributes : List String
  through : Option ThroughOptions := none
deriving DecidableEq, Repr

structure FindOptions where
  includes : List Include
deriving DecidableEq, Repr

/-- The join-table object nested in an eagerly loaded user. -/
structure ThroughView where
  userId : Option Nat
  groupId : Option Nat
deriving DecidableEq, Repr

/-- One eagerly loaded user: only the selected attributes are present. -/
structure UserView where
  login : Option String
  age : Option Nat
  id : Option Nat
  userGroupRelations : Option ThroughView
deriving DecidableEq, Repr

/-- A group as returned by the groups handle; `users` is present exactly when
the query asked for the association. -/
structure GroupInstance where
  id : Nat
  name : String
  permissions : Permissions
  users : Option (List UserView) := none
deriving DecidableEq, Repr

/-! ## The three persistence handles -/

inductive Model where
  | groups
  | users
  | userGroup
deriving DecidableEq, Repr

structure GroupWhere where
  id : Option Nat := none
  name : Option String := none
deriving DecidableEq, Repr

structure UserWhere where
  id : Option Nat := none
deriving DecidableEq, Repr

structure RelationWhere where
  userId : Option Nat := none
  groupId : Option Nat := none
deriving DecidableEq, Repr

structure GroupAttrs where
  name : String
  permissions : Permissions
deriving DecidableEq, Repr

structure UserAttrs where
  login : String
  age : Nat
deriving DecidableEq, Repr

/-- Rows a handle stores. -/
abbrev Model.Row : Model → Type
  | .groups => Group
  | .users => User
  | .userGroup => UserGroupRelation

/-- Objects a handle returns. -/
abbrev Model.Instance : Model → Type
  | .groups => GroupInstance
  | .users => User
  | .userGroup => UserGroupRelation

/-- The `where` objects a handle accepts. -/
abbrev Model.Where : Model → Type
  | .groups => GroupWhere
  | .users => UserWhere
  | .userGroup => RelationWhere

/-- The attribute objects a handle accepts in `create` and `update`. -/
abbrev Model.Attrs : Model → Type
  | .groups => GroupAttrs
  | .users => UserAttrs
  | .userGroup => UserGroupRelation

/-- A persistence call as issued by the service, with its arguments. -/
inductive Call where
  | findOne (model : Model) (filter : model.Where)
  | findByPk (model : Model) (id : Nat) (params : Option FindOptions)
  | findAll (model : Model) (params : FindOptions)
  | create (model : Model) (attrs : model.Attrs)
  | update (model : Model) (attrs : model.Attrs) (filter : model.Where)
  | destroy (model : Model) (filter : model.Where) (inTransaction : Bool)
  | transaction
  | commit
  | rollback

/-- Whether a call is a write, or opens or closes a transaction. -/
def Call.isWrite : Call → Bool
  | .findOne _ _ => false
  | .findByPk _ _ _ => false
  | .findAll _ _ => false
  | _ => true

structure Event where
  call : Call
  failed : Bool

/-- The world a service method runs in. -/
structure World where
  db : Store
  tx : Option Store
  fails : Nat → Bool
  log : List Event

/-- What awaiting a promise yields: a value, or a thrown error. -/
inductive Outcome (α : Type) where
  | ok (value : α)
  | thrown

/-- An asynchronous computation over the world. -/
def Async (α : Type) : Type := World → Outcome α × World

def Async.pure {α : Type} (a : α) : Async α := fun w => (.ok a, w)

def Async.bind {α β : Type} (m : Async α) (f : α → Async β) : Async β := fun w =>
  match m w with
  | (.ok a, w1) => f a w1
  | (.thrown, w1) => (.thrown, w1)

instance : Monad Async where
  pure := Async.pure
  bind := Async.bind

/-- The statement `try { body } catch { handler }`. -/
def tryCatch {α : Type} (body : Async α) (handler : Async α) : Async α := fun w =>
  match body w with
  | (.ok a, w1) => (.ok a, w1)
  | (.thrown, w1) => handler w1

/-- Issue one persistence call: it is logged; it throws, without effect, when
the fault schedule says so, and otherwise runs `effect`. -/
def persist {α : Type} (c : Call) (effect : World → Outcome α × World) : Async α := fun w =>
  if w.fails w.log.length then
    (.thrown, { w with log := w.log ++ [⟨c, true⟩] })
  else
    effect { w with log := w.log ++ [⟨c, false⟩] }

/-! ## Semantics of the handles -/

/-- The rows of the table behind a handle. -/
def Store.table (s : Store) : (model : Model) → List model.Row
  | .groups => s.groups
  | .users => s.users
  | .userGroup => s.userGroup

/-- Replace the rows of the table behind a handle. -/
def Store.setTable (s : Store) : (model : Model) → List model.Row → Store
  | .groups, rows => { s with groups := rows }
  | .users, rows => { s with users := rows }
  | .userGroup, rows => { s with userGroup := rows }

/-- A key of a `where` object holds of a column when it is absent or equal. -/
def holds {α : Type} [DecidableEq α] (key : Option α) (column : α) : Bool :=
  match key with
  | none => true
  | some v => decide (column = v)

/-- Whether a row matches a `where` object. -/
def Model.satisfies : (model : Model) → model.Where → model.Row → Bool
  | .groups, q, (g : Group) => holds q.id g.id && holds q.name g.name
  | .users, q, (u : User) => holds q.id u.id
  | .userGroup, q, (r : UserGroupRelation) => holds q.userId r.userId && holds q.groupId r.groupId

/-- Whether `id` is the primary key of a row.  Relation rows carry no
single-column key; the service never looks one up by key. -/
def Model.hasKey : (model : Model) → Nat → model.Row → Bool
  | .groups, id, (g : Group) => decide (g.id = id)
  | .users, id, (u : User) => decide (u.id = id)
  | .userGroup, _, _ => false

/-- Select the attributes of one user reached through relation row `r`.
Without a `through` option the join-table object is loaded with all its
attributes; with an empty attribute list it is left out. -/
def project (inc : Include) (r : UserGroupRelation) (u : User) : UserView :=
  { login := if "login" ∈ inc.attributes then some u.login else none
    age := if "age" ∈ inc.attributes then some u.age else none
    id := if "id" ∈ inc.attributes then some u.id else none
    userGroupRelations :=
      match inc.through with
      | none => some { userId := some r.userId, groupId := some r.groupId }
      | some t =>
        if t.attributes = [] then none
        else some { userId := if "userId" ∈ t.attributes then some r.userId else none
                    groupId := if "groupId" ∈ t.attributes then some r.groupId else none } }

/-- The users of group `g`, joined through the relation table. -/
def loadUsers (s : Store) (inc : Include) (g : Group) : List UserView :=
  (s.userGroup.filter (fun r => decide (r.groupId = g.id))).flatMap
    (fun r => (s.users.filter (fun u => decide (u.id = r.userId))).map (project inc r))

/-- The first entry of the `include` list of a query, if any. -/
def firstInclude (params : Option FindOptions) : Option Include :=
  match params with
  | some p => p.includes.head?
  | none => none

/-- Whether a row survives the join of the query: a required association
drops the groups that have no user. -/
def Model.visible (s : Store) : (model : Model) → Option FindOptions → model.Row → Bool
  | .groups, params, (g : Group) =>
    match firstInclude params with
    | some inc => !(inc.required && (loadUsers s inc g).isEmpty)
    | none => true
  | .users, _, _ => true
  | .userGroup, _, _ => true

/-- The object returned for a row under the given query options. -/
def Model.load (s : Store) : (model : Model) → Option FindOptions → model.Row → model.Instance
  | .groups, params, (g : Group) =>
    { id := g.id, name := g.name, permissions := g.permissions
      users := (firstInclude params).map (fun inc => loadUsers s inc g) }
  | .users, _, (u : User) => u
  | .userGroup, _, (r : UserGroupRelation) => r

/-- The row `create` inserts, and the store with its key counter advanced. -/
def Model.build (s : Store) : (model : Model) → model.Attrs → model.Row × Store
  | .groups, (a : GroupAttrs) =>
    (({ id := s.nextId, name := a.name, permissions := a.permissions } : Group),
      { s with nextId := s.nextId + 1 })
  | .users, (a : UserAttrs) =>
    (({ id := s.nextId, login := a.login, age := a.age } : User), { s with nextId := s.nextId + 1 })
  | .userGroup, (a : UserGroupRelation) => (a, s)

/-- The row after `update` has written the given attributes. -/
def Model.assign : (model : Model) → model.Attrs → model.Row → model.Row
  | .groups, (a : GroupAttrs), (g : Group) => ({ g with name := a.name, permissions := a.permissions } : Group)
  | .users, (a : UserAttrs), (u : User) => ({ u with login := a.login, age := a.age } : User)
  | .userGroup, (a : UserGroupRelation), _ => a

/-- The first row matching the filter, as `findOne({ where })` returns it. -/
def Store.findOne (s : Store) (model : Model) (filter : model.Where) : Option model.Instance :=
  ((s.table model).find? (model.satisfies filter)).map (model.load s none)

/-- The row with the given primary key, loaded under the query options. -/
def Store.findByPk (s : Store) (model : Model) (id : Nat) (params : Option FindOptions) :
    Option model.Instance :=
  ((s.table model).find? (fun row => model.hasKey id row && model.visible s params row)).map
    (model.load s params)

/-- All rows, loaded under the query options. -/
def Store.findAll (s : Store) (model : Model) (params : FindOptions) : List model.Instance :=
  ((s.table model).filter (model.visible s (some params))).map (model.load s (some params))

/-- Insert a row built from the attributes; returns it with the new store. -/
def Store.create (s : Store) (model : Model) (attrs : model.Attrs) : model.Instance × Store :=
  let built := model.build s attrs
  (model.load built.2 none built.1, built.2.setTable model (built.2.table model ++ [built.1]))

/-- Write the attributes into every row matching the filter. -/
def Store.update (s : Store) (model : Model) (attrs : model.Attrs) (filter : model.Where) : Store :=
  s.setTable model
    ((s.table model).map (fun row => if model.satisfies filter row then model.assign attrs row else row))

/-- Remove every row matching the filter. -/
def Store.destroy (s : Store) (model : Model) (filter : model.Where) : Store :=
  s.setTable model ((s.table model).filter (fun row => !(model.satisfies filter row)))

def Model.findOne (model : Model) (filter : model.Where) : Async (Option model.Instance) :=
  persist (.findOne model filter) fun w => (.ok (w.db.findOne model filter), w)

def Model.findByPk (model : Model) (id : Nat) (params : Option FindOptions) :
    Async (Option model.Instance) :=
  persist (.findByPk model id params) fun w => (.ok (w.db.findByPk model id params), w)

def Model.findAll (model : Model) (params : FindOptions) : Async (List model.Instance) :=
  persist (.findAll model params) fun w => (.ok (w.db.findAll model params), w)

def Model.create (model : Model) (attrs : model.Attrs) : Async model.Instance :=
  persist (.create model attrs) fun w =>
    (.ok (w.db.create model attrs).1, { w with db := (w.db.create model attrs).2 })

def Model.update (model : Model) (attrs : model.Attrs) (filter : model.Where) : Async Unit :=
  persist (.update model attrs filter) fun w =>
    (.ok (), { w with db := w.db.update model attrs filter })

/-- The transaction handle returned by `sequelize.transaction()`. -/
structure Transaction where
deriving DecidableEq, Repr

/-- The call `model.destroy({ where, transaction })`: with a transaction the
rows are removed in its working copy, without one in the committed store. -/
def Model.destroy (model : Model) (filter : model.Where) (transaction : Option Transaction := none) :
    Async Unit :=
  persist (.destroy model filter transaction.isSome) fun w =>
    match transaction with
    | none => (.ok (), { w with db := w.db.destroy model filter })
    | some _ =>
      match w.tx with
      | some s => (.ok (), { w with tx := some (s.destroy model filter) })
      | none => (.thrown, w)

namespace sequelize

/-- Open an unmanaged transaction: its working copy starts as the committed
store. -/
def transaction : Async Transaction :=
  persist .transaction fun w => (.ok {}, { w with tx := some w.db })

end sequelize

/-- Commit: the working copy becomes the committed store. -/
def Transaction.commit (_ : Transaction) : Async Unit :=
  persist .commit fun w =>
    match w.tx with
    | some s => (.ok (), { w with db := s, tx := none })
    | none => (.thrown, w)

/-- Roll back: the working copy is dropped. -/
def Transaction.rollback (_ : Transaction) : Async Unit :=
  persist .rollback fun w =>
    match w.tx with
    | some _ => (.ok (), { w with tx := none })
    | none => (.thrown, w)

/-! ## JavaScript result objects -/

/-- The JavaScript values that occur in the records the service returns. -/
inductive JsValue where
  | bool (b : Bool)
  | str (s : String)
  | group (g : GroupInstance)
  | groups (gs : List GroupInstance)
  | object (fields : List (String × JsValue))

/-- A returned record: its properties in source order. -/
abbrev Result := List (String × JsValue)

/-- Property access `r.key`: `none` when the object has no such key. -/
def Result.get? (r : Result) (key : String) : Option JsValue :=
  (r.find? (fun kv => decide (kv.1 = key))).map (fun kv => kv.2)

def DEFAULT_ERROR_RESULT : Result :=
  [("success", .bool false), ("code", .str CODES.DEFAULT), ("message", .str "Something went wrong")]

def DEFAULT_SUCCESS_RESULT : Result :=
  [("success", .bool true), ("code", .str CODES.SUCCESS)]

/-! ## service.js -/

/-- The helper `existsByParams({ params, model = this.groups })`: the handle is
passed at every call, where the source leaves it out it is `groups`. -/
def existsByParams (model : Model) (params : model.Where) : Async (Option model.Instance) :=
  model.findOne params

/-- The helper `existsById({ id, params, model = this.groups })`; an omitted
`params` is `none`. -/
def existsById (model : Model) (id : Nat) (params : Option FindOptions := none) :
    Async (Option model.Instance) :=
  model.findByPk id params

/-- The method `add({ name, permissions })`.  Its success record is written
`{ DEFAULT_SUCCESS_RESULT, data: createdGroup }`: the constant is a property
of the record, not spread into it. -/
def add (name : String) (permissions : Permissions) : Async Result :=
  tryCatch
    (do
      let found ← existsByParams .groups ({ name := some name } : GroupWhere)
      if found.isSome then
        pure [("success", .bool false), ("code", .str CODES.BAD_DATA), ("message", .str "Name exists")]
      else do
        let createdGroup ← Model.groups.create ({ name := name, permissions := permissions } : GroupAttrs)
        pure [("DEFAULT_SUCCESS_RESULT", .object DEFAULT_SUCCESS_RESULT), ("data", .group createdGroup)])
    (pure [("success", .bool false), ("code", .str CODES.SOMETHING_WENT_WRONG),
      ("message", .str "Something went wrong")])

/-- The method `update(id, { name, permissions })`. -/
def update (id : Nat) (name : String) (permissions : Permissions) : Async Result :=
  tryCatch
    (do
      let found ← existsById .groups id
      if found.isSome then do
        Model.groups.update ({ name := name, permissions := permissions } : GroupAttrs)
          ({ id := some id } : GroupWhere)
        pure DEFAULT_SUCCESS_RESULT
      else
        pure [("success", .bool false), ("code", .str CODES.NOT_FOUND), ("message", .str "Group not found")])
    (pure [("success", .bool false), ("code", .str CODES.SOMETHING_WENT_WRONG),
      ("message", .str "Something went wrong")])

/-- The method `delete(id)`: the existence check runs outside the
transaction; the two destroys and the commit run in the inner `try`, whose
`catch` rolls back. -/
def delete (id : Nat) : Async Result :=
  tryCatch
    (do
      let found ← existsById .groups id
      if found.isSome then do
        let transaction ← sequelize.transaction
        tryCatch
          (do
            Model.groups.destroy ({ id := some id } : GroupWhere) (some transaction)
            Model.userGroup.destroy ({ groupId := some id } : RelationWhere) (some transaction)
            transaction.commit
            pure DEFAULT_SUCCESS_RESULT)
          (do
            transaction.rollback
            pure [("success", .bool false), ("code", .str CODES.SOMETHING_WENT_WRONG),
              ("message", .str "Something went wrong")])
      else
        pure [("success", .bool false), ("code", .str CODES.NOT_FOUND), ("message", .str "Groups not found")])
    (pure [("success", .bool false), ("code", .str CODES.SOMETHING_WENT_WRONG),
      ("message", .str "Something went wrong")])

/-- The method `addUserToGroup({ userId, groupId })`.  The `switch (true)`
takes the first case whose condition holds, in source order. -/
def addUserToGroup (userId groupId : Nat) : Async Result :=
  tryCatch
    (do
      let user ← existsById .users userId
      let group ← existsById .groups groupId
      if user.isSome && group.isSome then do
        let linked ← existsByParams .userGroup
          ({ userId := some userId, groupId := some groupId } : RelationWhere)
        if linked.isSome then
          pure [("success", .bool false), ("code", .str CODES.BAD_DATA),
            ("message", .str "User is in group already")]
        else do
          let _ ← Model.userGroup.create ({ userId := userId, groupId := groupId } : UserGroupRelation)
          pure DEFAULT_SUCCESS_RESULT
      else if user.isSome && !group.isSome then
        pure [("success", .bool false), ("code", .str CODES.NOT_FOUND), ("message", .str "Group not found")]
      else if group.isSome && !user.isSome then
        pure [("success", .bool false), ("code", .str CODES.NOT_FOUND), ("message", .str "User not found")]
      else
        pure [("success", .bool false), ("code", .str CODES.NOT_FOUND),
          ("message", .str "User and Group not found")])
    (pure [("success", .bool false), ("code", .str CODES.SOMETHING_WENT_WRONG),
      ("message", .str "Something went wrong")])

/-- The method `getById(id)`; its include has no `through` entry. -/
def getById (id : Nat) : Async Result :=
  tryCatch
    (do
      let group ← existsById .groups id
        (some { includes :=
          [{ as := "users", required := false, attributes := ["login", "age", "id"] }] })
      match group with
      | some g => pure (DEFAULT_SUCCESS_RESULT ++ [("data", .group g)])
      | none =>
        pure [("success", .bool false), ("code", .str CODES.NOT_FOUND), ("message", .str "Group not found")])
    (pure [("success", .bool false), ("code", .str CODES.SOMETHING_WENT_WRONG),
      ("message", .str "Something went wrong")])

/-- The method `get()`; its include has `through: { attributes: [] }`. -/
def get : Async Result :=
  tryCatch
    (do
      let groups ← Model.groups.findAll
        { includes :=
          [{ as := "users", required := false, attributes := ["login", "age", "id"],
             through := some { attributes := [] } }] }
      pure (DEFAULT_SUCCESS_RESULT ++ [("data", .groups groups)]))
    (pure [("success", .bool false), ("code", .str CODES.SOMETHING_WENT_WRONG),
      ("message", .str "Something went wrong")])

/-! ## Specification vocabulary -/

/-- Some group row has primary key `id`. -/
def Store.hasGroup (s : Store) (id : Nat) : Prop := ∃ g ∈ s.groups, g.id = id

/-- Some user row has primary key `id`. -/
def Store.hasUser (s : Store) (id : Nat) : Prop := ∃ u ∈ s.users, u.id = id

/-- Some group row carries the name `name`. -/
def Store.hasName (s : Store) (name : String) : Prop := ∃ g ∈ s.groups, g.name = name

/-- Some relation row links user `userId` to group `groupId`. -/
def Store.linked (s : Store) (userId groupId : Nat) : Prop :=
  ∃ r ∈ s.userGroup, r.userId = userId ∧ r.groupId = groupId

instance (s : Store) (id : Nat) : Decidable (s.hasGroup id) := by
  unfold Store.hasGroup; infer_instance

instance (s : Store) (id : Nat) : Decidable (s.hasUser id) := by
  unfold Store.hasUser; infer_instance

instance (s : Store) (name : String) : Decidable (s.hasName name) := by
  unfold Store.hasName; infer_instance

instance (s : Store) (userId groupId : Nat) : Decidable (s.linked userId groupId) := by
  unfold Store.linked; infer_instance

/-- No persistence call of the run fails. -/
def World.faultFree (w : World) : Prop := ∀ k, w.fails k = false

/-- No two group rows share a name. -/
def Store.uniqueNames (s : Store) : Prop := (s.groups.map (fun g => g.name)).Nodup

/-- Every relation row points to an existing group. -/
def Store.referential (s : Store) : Prop := ∀ r ∈ s.userGroup, s.hasGroup r.groupId

/-- The events a run appended to the log of the world it started in. -/
def newEvents (w w1 : World) : List Event := w1.log.drop w.log.length

instance (s : Store) : Decidable s.uniqueNames := by
  unfold Store.uniqueNames; infer_instance

instance (s : Store) : Decidable s.referential := by
  unfold Store.referential; infer_instance

/-- The record every `catch` block of the service returns. -/
def wentWrong : Result :=
  [("success", .bool false), ("code", .str CODES.SOMETHING_WENT_WRONG),
    ("message", .str "Something went wrong")]

/-- The shape the result contract asks for: a boolean `success`, a `code`
among the four codes, and `success` true exactly for SUCCESS. -/
def Result.uniform (r : Result) : Prop :=
  ∃ b c, r.get? "success" = some (.bool b) ∧ r.get? "code" = some (.str c) ∧
    c ∈ [CODES.SUCCESS, CODES.NOT_FOUND, CODES.BAD_DATA, CODES.SOMETHING_WENT_WRONG] ∧
    (b = true ↔ c = CODES.SUCCESS)

/-! ## Sample worlds -/

/-- A world over an empty database in which no call fails. -/
def emptyWorld : World :=
  { db := { groups := [], users := [], userGroup := [], nextId := 1 }
    tx := none, fails := fun _ => false, log := [] }

def sampleStore : Store :=
  { groups := [⟨1, "Admins", ["READ", "WRITE"]⟩, ⟨2, "Guests", ["READ"]⟩]
    users := [⟨7, "bob", 30⟩, ⟨8, "eve", 25⟩]
    userGroup := [⟨7, 1⟩]
    nextId := 3 }

/-- A world over `sampleStore` in which no call fails. -/
def sampleWorld : World :=
  { db := sampleStore, tx := none, fails := fun _ => false, log := [] }

/-- A world over `sampleStore` in which exactly the `k`-th call fails. -/
def faultyWorld (k : Nat) : World :=
  { db := sampleStore, tx := none, fails := fun n => decide (n = k), log := [] }

/-! ## Lookups -/

theorem findOne_name_isSome (s : Store) (name : String) :
    (s.findOne .groups ({ name := some name } : GroupWhere)).isSome = true ↔ s.hasName name := by
  simp [Store.findOne, Store.table, Model.satisfies, holds, Store.hasName]

theorem findOne_link_isSome (s : Store) (userId groupId : Nat) :
    (s.findOne .userGroup ({ userId := some userId, groupId := some groupId } : RelationWhere)).isSome
      = true ↔ s.linked userId groupId := by
  simp [Store.findOne, Store.table, Model.satisfies, holds, Store.linked]

theorem findByPk_user_isSome (s : Store) (id : Nat) :
    (s.findByPk .users id none).isSome = true ↔ s.hasUser id := by
  simp [Store.findByPk, Store.table, Model.hasKey, Model.visible, Store.hasUser]

theorem findByPk_group_isSome (s : Store) (id : Nat) :
    (s.findByPk .groups id none).isSome = true ↔ s.hasGroup id := by
  simp [Store.findByPk, Store.table, Model.hasKey, Model.visible, firstInclude, Store.hasGroup]

theorem findByPk_include_isSome (s : Store) (id : Nat) (inc : Include)
    (hreq : inc.required = false) :
    (s.findByPk .groups id (some { includes := [inc] })).isSome = true ↔ s.hasGroup id := by
  simp [Store.findByPk, Store.table, Model.hasKey, Model.visible, firstInclude, hreq,
    Store.hasGroup]

/-! ## Runs without persistence failure -/

theorem add_existing_run (w : World) (name : String) (permissions : Permissions)
    (hno : w.faultFree) (hex : w.db.hasName name) :
    add name permissions w =
      (.ok [("success", .bool false), ("code", .str CODES.BAD_DATA), ("message", .str "Name exists")],
        { w with log := w.log ++ [⟨.findOne .groups ({ name := some name } : GroupWhere), false⟩] }) := by
  have h1 := (findOne_name_isSome w.db name).2 hex
  simp [add, tryCatch, existsByParams, Model.findOne, persist, bind, Async.bind, pure, Async.pure,
    hno _, h1]

theorem addUserToGroup_missing_run (w : World) (userId groupId : Nat) (hno : w.faultFree)
    (hmiss : ¬ (w.db.hasUser userId ∧ w.db.hasGroup groupId)) :
    addUserToGroup userId groupId w =
      (.ok [("success", .bool false), ("code", .str CODES.NOT_FOUND),
          ("message", .str (if w.db.hasUser userId then "Group not found"
            else if w.db.hasGroup groupId then "User not found" else "User and Group not found"))],
        { w with log := w.log ++ [⟨.findByPk .users userId none, false⟩,
            ⟨.findByPk .groups groupId none, false⟩] }) := by
  have hu := findByPk_user_isSome w.db userId
  have hg := findByPk_group_isSome w.db groupId
  by_cases h1 : w.db.hasUser userId <;> by_cases h2 : w.db.hasGroup groupId <;>
    simp_all [addUserToGroup, tryCatch, existsById, existsByParams, Model.findByPk, persist, bind,
      Async.bind, pure, Async.pure, hno _]

theorem addUserToGroup_linked_run (w : World) (userId groupId : Nat) (hno : w.faultFree)
    (hu : w.db.hasUser userId) (hg : w.db.hasGroup groupId) (hl : w.db.linked userId groupId) :
    addUserToGroup userId groupId w =
      (.ok [("success", .bool false), ("code", .str CODES.BAD_DATA),
          ("message", .str "User is in group already")],
        { w with log := w.log ++ [⟨.findByPk .users userId none, false⟩,
            ⟨.findByPk .groups groupId none, false⟩,
            ⟨.findOne .userGroup ({ userId := some userId, groupId := some groupId } : RelationWhere),
              false⟩] }) := by
  have hu1 := (findByPk_user_isSome w.db userId).2 hu
  have hg1 := (findByPk_group_isSome w.db groupId).2 hg
  have hl1 := (findOne_link_isSome w.db userId groupId).2 hl
  simp [addUserToGroup, tryCatch, existsById, existsByParams, Model.findByPk, Model.findOne, persist,
    bind, Async.bind, pure, Async.pure, hno _, hu1, hg1, hl1]

theorem addUserToGroup_fresh_run (w : World) (userId groupId : Nat) (hno : w.faultFree)
    (hu : w.db.hasUser userId) (hg : w.db.hasGroup groupId) (hl : ¬ w.db.linked userId groupId) :
    addUserToGroup userId groupId w =
      (.ok DEFAULT_SUCCESS_RESULT,
        { w with
          db := { w.db with userGroup := w.db.userGroup ++ [⟨userId, groupId⟩] }
          log := w.log ++ [⟨.findByPk .users userId none, false⟩,
            ⟨.findByPk .groups groupId none, false⟩,
            ⟨.findOne .userGroup ({ userId := some userId, groupId := some groupId } : RelationWhere),
              false⟩,
            ⟨.create .userGroup (⟨userId, groupId⟩ : UserGroupRelation), false⟩] }) := by
  have hu1 := (findByPk_user_isSome w.db userId).2 hu
  have hg1 := (findByPk_group_isSome w.db groupId).2 hg
  have hl1 : (w.db.findOne .userGroup
      ({ userId := some userId, groupId := some groupId } : RelationWhere)).isSome = false := by
    rw [Bool.eq_false_iff]; exact fun h => hl ((findOne_link_isSome w.db userId groupId).1 h)
  simp [addUserToGroup, tryCatch, existsById, existsByParams, Model.findByPk, Model.findOne,
    Model.create, Store.create, Model.build, Model.load, Store.setTable, Store.table, persist,
    bind, Async.bind, pure, Async.pure, hno _, hu1, hg1, hl1]

theorem add_fresh_run (w : World) (name : String) (permissions : Permissions)
    (hno : w.faultFree) (hex : ¬ w.db.hasName name) :
    add name permissions w =
      (.ok [("DEFAULT_SUCCESS_RESULT", .object DEFAULT_SUCCESS_RESULT),
          ("data", .group { id := w.db.nextId, name := name, permissions := permissions })],
        { w with
          db := { w.db with
            groups := w.db.groups ++ [⟨w.db.nextId, name, permissions⟩]
            nextId := w.db.nextId + 1 }
          log := w.log ++ [⟨.findOne .groups ({ name := some name } : GroupWhere), false⟩,
            ⟨.create .groups ({ name := name, permissions := permissions } : GroupAttrs), false⟩] }) := by
  have h1 : (w.db.findOne .groups ({ name := some name } : GroupWhere)).isSome = false := by
    rw [Bool.eq_false_iff]; exact fun h => hex ((findOne_name_isSome w.db name).1 h)
  simp [add, tryCatch, existsByParams, Model.findOne, Model.create, Store.create, Model.build,
    Model.load, firstInclude, Store.setTable, Store.table, persist, bind, Async.bind, pure,
    Async.pure, hno _, h1]

theorem update_missing_run (w : World) (id : Nat) (name : String) (permissions : Permissions)
    (hno : w.faultFree) (hmiss : ¬ w.db.hasGroup id) :
    update id name permissions w =
      (.ok [("success", .bool false), ("code", .str CODES.NOT_FOUND),
          ("message", .str "Group not found")],
        { w with log := w.log ++ [⟨.findByPk .groups id none, false⟩] }) := by
  have h1 : (w.db.findByPk .groups id none).isSome = false := by
    rw [Bool.eq_false_iff]; exact fun h => hmiss ((findByPk_group_isSome w.db id).1 h)
  simp [update, tryCatch, existsById, Model.findByPk, persist, bind, Async.bind, pure, Async.pure,
    hno _, h1]

theorem update_existing_run (w : World) (id : Nat) (name : String) (permissions : Permissions)
    (hno : w.faultFree) (hex : w.db.hasGroup id) :
    update id name permissions w =
      (.ok DEFAULT_SUCCESS_RESULT,
        { w with
          db := { w.db with
            groups := w.db.groups.map
              (fun g => if g.id = id then { g with name := name, permissions := permissions } else g) }
          log := w.log ++ [⟨.findByPk .groups id none, false⟩,
            ⟨.update .groups ({ name := name, permissions := permissions } : GroupAttrs)
              ({ id := some id } : GroupWhere), false⟩] }) := by
  have h1 := (findByPk_group_isSome w.db id).2 hex
  simp [update, tryCatch, existsById, Model.findByPk, Model.update, Store.update, Model.satisfies,
    holds, Model.assign, Store.setTable, Store.table, persist, bind, Async.bind, pure, Async.pure,
    hno _, h1]

theorem delete_missing_run (w : World) (id : Nat) (hno : w.faultFree) (hmiss : ¬ w.db.hasGroup id) :
    delete id w =
      (.ok [("success", .bool false), ("code", .str CODES.NOT_FOUND),
          ("message", .str "Groups not found")],
        { w with log := w.log ++ [⟨.findByPk .groups id none, false⟩] }) := by
  have h1 : (w.db.findByPk .groups id none).isSome = false := by
    rw [Bool.eq_false_iff]; exact fun h => hmiss ((findByPk_group_isSome w.db id).1 h)
  simp [delete, tryCatch, existsById, Model.findByPk, persist, bind, Async.bind, pure, Async.pure,
    hno _, h1]

theorem delete_existing_run (w : World) (id : Nat) (hno : w.faultFree) (hex : w.db.hasGroup id) :
    delete id w =
      (.ok DEFAULT_SUCCESS_RESULT,
        { w with
          db := { w.db with
            groups := w.db.groups.filter (fun g => !decide (g.id = id))
            userGroup := w.db.userGroup.filter (fun r => !decide (r.groupId = id)) }
          tx := none
          log := w.log ++ [⟨.findByPk .groups id none, false⟩, ⟨.transaction, false⟩,
            ⟨.destroy .groups ({ id := some id } : GroupWhere) true, false⟩,
            ⟨.destroy .userGroup ({ groupId := some id } : RelationWhere) true, false⟩,
            ⟨.commit, false⟩] }) := by
  have h1 := (findByPk_group_isSome w.db id).2 hex
  simp [delete, tryCatch, existsById, Model.findByPk, sequelize.transaction, Model.destroy,
    Store.destroy, Model.satisfies, holds, Transaction.commit, Store.setTable, Store.table, persist,
    bind, Async.bind, pure, Async.pure, hno _, h1]

theorem getById_missing_run (w : World) (id : Nat) (hno : w.faultFree) (hmiss : ¬ w.db.hasGroup id) :
    getById id w =
      (.ok [("success", .bool false), ("code", .str CODES.NOT_FOUND),
          ("message", .str "Group not found")],
        { w with log := w.log ++
          [⟨.findByPk .groups id (some { includes :=
            [{ as := "users", required := false, attributes := ["login", "age", "id"] }] }),
            false⟩] }) := by
  have h1 : w.db.findByPk .groups id (some { includes :=
      [{ as := "users", required := false, attributes := ["login", "age", "id"] }] }) = none := by
    rw [← Option.not_isSome_iff_eq_none]
    exact fun h => hmiss ((findByPk_include_isSome w.db id _ rfl).1 h)
  simp [getById, tryCatch, existsById, Model.findByPk, persist, bind, Async.bind, pure, Async.pure,
    hno _, h1]

/-! ## Runs with persistence failures -/

theorem wentWrong_eq_default : wentWrong = DEFAULT_ERROR_RESULT := rfl

theorem add_fault (w : World) (name : String) (permissions : Permissions)
    (h : ∃ e ∈ newEvents w (add name permissions w).2, e.failed = true) :
    (add name permissions w).1 = .ok wentWrong ∧ (add name permissions w).2.db = w.db := by
  revert h
  by_cases h0 : w.fails w.log.length = true <;>
  by_cases h1 : w.fails (w.log.length + 1) = true <;>
  cases hf : (w.db.findOne .groups ({ name := some name } : GroupWhere)).isSome <;>
  simp [newEvents, wentWrong, add, tryCatch, existsByParams, Model.findOne, Model.create, persist,
    bind, Async.bind, pure, Async.pure, h0, h1, hf]

theorem update_fault (w : World) (id : Nat) (name : String) (permissions : Permissions)
    (h : ∃ e ∈ newEvents w (update id name permissions w).2, e.failed = true) :
    (update id name permissions w).1 = .ok wentWrong ∧ (update id name permissions w).2.db = w.db := by
  revert h
  by_cases h0 : w.fails w.log.length = true <;>
  by_cases h1 : w.fails (w.log.length + 1) = true <;>
  cases hf : (w.db.findByPk .groups id none).isSome <;>
  simp [newEvents, wentWrong, update, tryCatch, existsById, Model.findByPk, Model.update, persist,
    bind, Async.bind, pure, Async.pure, h0, h1, hf]

theorem addUserToGroup_fault (w : World) (userId groupId : Nat)
    (h : ∃ e ∈ newEvents w (addUserToGroup userId groupId w).2, e.failed = true) :
    (addUserToGroup userId groupId w).1 = .ok wentWrong ∧
      (addUserToGroup userId groupId w).2.db = w.db := by
  revert h
  by_cases h0 : w.fails w.log.length = true <;>
  by_cases h1 : w.fails (w.log.length + 1) = true <;>
  by_cases h2 : w.fails (w.log.length + 2) = true <;>
  by_cases h3 : w.fails (w.log.length + 3) = true <;>
  cases hu : (w.db.findByPk .users userId none).isSome <;>
  cases hg : (w.db.findByPk .groups groupId none).isSome <;>
  cases hl : (w.db.findOne .userGroup
    ({ userId := some userId, groupId := some groupId } : RelationWhere)).isSome <;>
  simp [newEvents, wentWrong, addUserToGroup, tryCatch, existsById, existsByParams, Model.findByPk,
    Model.findOne, Model.create, persist, bind, Async.bind, pure, Async.pure, h0, h1, h2, h3, hu,
    hg, hl]

theorem delete_fault (w : World) (id : Nat)
    (h : ∃ e ∈ newEvents w (delete id w).2, e.failed = true) :
    (delete id w).1 = .ok wentWrong ∧ (delete id w).2.db = w.db := by
  revert h
  by_cases h0 : w.fails w.log.length = true <;>
  by_cases h1 : w.fails (w.log.length + 1) = true <;>
  by_cases h2 : w.fails (w.log.length + 2) = true <;>
  by_cases h3 : w.fails (w.log.length + 3) = true <;>
  by_cases h4 : w.fails (w.log.length + 4) = true <;>
  by_cases h5 : w.fails (w.log.length + 5) = true <;>
  cases hf : (w.db.findByPk .groups id none).isSome <;>
  simp [newEvents, wentWrong, delete, tryCatch, existsById, Model.findByPk, sequelize.transaction,
    Model.destroy, Transaction.commit, Transaction.rollback, persist, bind, Async.bind, pure,
    Async.pure, h0, h1, h2, h3, h4, h5, hf]

/-! ## The committed state after a run, under any fault schedule -/

theorem add_db (w : World) (name : String) (permissions : Permissions) :
    (add name permissions w).2.db = w.db ∨
      (¬ w.db.hasName name ∧
        (add name permissions w).2.db =
          { w.db with
            groups := w.db.groups ++ [⟨w.db.nextId, name, permissions⟩]
            nextId := w.db.nextId + 1 }) := by
  have hn := findOne_name_isSome w.db name
  by_cases h0 : w.fails w.log.length = true <;>
  by_cases h1 : w.fails (w.log.length + 1) = true <;>
  cases hf : (w.db.findOne .groups ({ name := some name } : GroupWhere)).isSome <;>
  simp_all [add, tryCatch, existsByParams, Model.findOne, Model.create, Store.create, Model.build,
    Store.setTable, Store.table, persist, bind, Async.bind, pure, Async.pure]

theorem update_db (w : World) (id : Nat) (name : String) (permissions : Permissions) :
    (update id name permissions w).2.db = w.db ∨
      (update id name permissions w).2.db =
        { w.db with
          groups := w.db.groups.map
            (fun g => if g.id = id then { g with name := name, permissions := permissions } else g) } := by
  by_cases h0 : w.fails w.log.length = true <;>
  by_cases h1 : w.fails (w.log.length + 1) = true <;>
  cases hf : (w.db.findByPk .groups id none).isSome <;>
  simp [update, tryCatch, existsById, Model.findByPk, Model.update, Store.update, Model.satisfies,
    holds, Model.assign, Store.setTable, Store.table, persist, bind, Async.bind, pure, Async.pure,
    h0, h1, hf]

theorem delete_db (w : World) (id : Nat) :
    (delete id w).2.db = w.db ∨
      (delete id w).2.db =
        { w.db with
          groups := w.db.groups.filter (fun g => !decide (g.id = id))
          userGroup := w.db.userGroup.filter (fun r => !decide (r.groupId = id)) } := by
  by_cases h0 : w.fails w.log.length = true <;>
  by_cases h1 : w.fails (w.log.length + 1) = true <;>
  by_cases h2 : w.fails (w.log.length + 2) = true <;>
  by_cases h3 : w.fails (w.log.length + 3) = true <;>
  by_cases h4 : w.fails (w.log.length + 4) = true <;>
  by_cases h5 : w.fails (w.log.length + 5) = true <;>
  cases hf : (w.db.findByPk .groups id none).isSome <;>
  simp [delete, tryCatch, existsById, Model.findByPk, sequelize.transaction, Model.destroy,
    Store.destroy, Model.satisfies, holds, Store.setTable, Store.table, Transaction.commit,
    Transaction.rollback, persist, bind, Async.bind, pure, Async.pure, h0, h1, h2, h3, h4, h5, hf]

theorem addUserToGroup_db (w : World) (userId groupId : Nat) :
    (addUserToGroup userId groupId w).2.db = w.db ∨
      (w.db.hasGroup groupId ∧
        (addUserToGroup userId groupId w).2.db =
          { w.db with userGroup := w.db.userGroup ++ [⟨userId, groupId⟩] }) := by
  have hgr := findByPk_group_isSome w.db groupId
  by_cases h0 : w.fails w.log.length = true <;>
  by_cases h1 : w.fails (w.log.length + 1) = true <;>
  by_cases h2 : w.fails (w.log.length + 2) = true <;>
  by_cases h3 : w.fails (w.log.length + 3) = true <;>
  cases hu : (w.db.findByPk .users userId none).isSome <;>
  cases hg : (w.db.findByPk .groups groupId none).isSome <;>
  cases hl : (w.db.findOne .userGroup
    ({ userId := some userId, groupId := some groupId } : RelationWhere)).isSome <;>
  simp_all [addUserToGroup, tryCatch, existsById, existsByParams, Model.findByPk, Model.findOne,
    Model.create, Store.create, Model.build, Store.setTable, Store.table, persist, bind,
    Async.bind, pure, Async.pure]

theorem getById_db (w : World) (id : Nat) : (getById id w).2.db = w.db := by
  by_cases h0 : w.fails w.log.length = true <;>
  cases hf : w.db.findByPk .groups id (some { includes :=
    [{ as := "users", required := false, attributes := ["login", "age", "id"] }] }) <;>
  simp [getById, tryCatch, existsById, Model.findByPk, persist, bind, Async.bind, pure,
    Async.pure, h0, hf]

theorem get_db (w : World) : (get w).2.db = w.db := by
  by_cases h0 : w.fails w.log.length = true <;>
  simp [get, tryCatch, Model.findAll, persist, bind, Async.bind, pure, Async.pure, h0]

theorem delete_rollback (w : World) (id : Nat) (hex : w.db.hasGroup id)
    (h0 : w.fails w.log.length = false) (h1 : w.fails (w.log.length + 1) = false)
    (h2 : w.fails (w.log.length + 2) = false) (h3 : w.fails (w.log.length + 3) = true) :
    (delete id w).1 = .ok wentWrong ∧ (delete id w).2.db = w.db ∧
      ∃ e ∈ newEvents w (delete id w).2, e.call = .rollback := by
  have hf := (findByPk_group_isSome w.db id).2 hex
  by_cases h4 : w.fails (w.log.length + 4) = true <;>
  simp [newEvents, wentWrong, delete, tryCatch, existsById, Model.findByPk, sequelize.transaction,
    Model.destroy, Transaction.commit, Transaction.rollback, persist, bind, Async.bind, pure,
    Async.pure, h0, h1, h2, h3, h4, hf]

/-! ## Invariants of the store -/

theorem referential_insert_group (s : Store) (g : Group) (n : Nat) (h : s.referential) :
    Store.referential { s with groups := s.groups ++ [g], nextId := n } := by
  intro r hr
  obtain ⟨g1, hg1, hid⟩ := h r hr
  exact ⟨g1, List.mem_append_left _ hg1, hid⟩

theorem referential_assign (s : Store) (id : Nat) (name : String) (permissions : Permissions)
    (h : s.referential) :
    Store.referential { s with
      groups := s.groups.map
        (fun g => if g.id = id then { g with name := name, permissions := permissions } else g) } := by
  intro r hr
  obtain ⟨g1, hg1, hid⟩ := h r hr
  refine ⟨if g1.id = id then { g1 with name := name, permissions := permissions } else g1,
    List.mem_map.2 ⟨g1, hg1, rfl⟩, ?_⟩
  split <;> exact hid

theorem referential_destroy (s : Store) (id : Nat) (h : s.referential) :
    Store.referential { s with
      groups := s.groups.filter (fun g => !decide (g.id = id))
      userGroup := s.userGroup.filter (fun r => !decide (r.groupId = id)) } := by
  intro r hr
  have hr1 : r ∈ s.userGroup ∧ r.groupId ≠ id := by simpa using hr
  obtain ⟨g1, hg1, hid⟩ := h r hr1.1
  exact ⟨g1, by simpa [hid] using And.intro hg1 hr1.2, hid⟩

theorem referential_link (s : Store) (userId groupId : Nat) (h : s.referential)
    (hg : s.hasGroup groupId) :
    Store.referential { s with userGroup := s.userGroup ++ [⟨userId, groupId⟩] } := by
  intro r hr
  have hr1 : r ∈ s.userGroup ∨ r = ⟨userId, groupId⟩ := by simpa using hr
  rcases hr1 with hr1 | hr1
  · exact h r hr1
  · subst hr1; exact hg

theorem uniqueNames_insert_group (s : Store) (g : Group) (n : Nat) (h : s.uniqueNames)
    (hfresh : ¬ s.hasName g.name) :
    Store.uniqueNames { s with groups := s.groups ++ [g], nextId := n } := by
  unfold Store.uniqueNames at *
  simp only [List.map_append, List.map_cons, List.map_nil]
  refine List.Nodup.append h (List.nodup_singleton _) ?_
  intro a ha hb
  have hb1 : a = g.name := by simpa using hb
  obtain ⟨g1, hg1, hn⟩ := List.mem_map.1 ha
  exact hfresh ⟨g1, hg1, hn.trans hb1⟩

theorem uniqueNames_destroy (s : Store) (id : Nat) (h : s.uniqueNames) :
    Store.uniqueNames { s with
      groups := s.groups.filter (fun g => !decide (g.id = id))
      userGroup := s.userGroup.filter (fun r => !decide (r.groupId = id)) } := by
  unfold Store.uniqueNames at *
  exact List.Nodup.sublist (List.Sublist.map _ (List.filter_sublist _)) h

/-! ## What holds of the operations the failing inputs leave out -/

theorem uniform_failure (c message : String)
    (hc : c ∈ [CODES.NOT_FOUND, CODES.BAD_DATA, CODES.SOMETHING_WENT_WRONG]) :
    Result.uniform [("success", .bool false), ("code", .str c), ("message", .str message)] := by
  refine ⟨false, c, by simp [Result.get?], by simp [Result.get?], ?_, ?_⟩
  · simp only [List.mem_cons, List.mem_singleton, List.not_mem_nil, or_false] at hc ⊢
    exact Or.inr hc
  · simp only [List.mem_cons, List.mem_singleton, List.not_mem_nil, or_false] at hc
    rcases hc with h | h | h <;> subst h <;> decide

theorem uniform_success (rest : Result) : Result.uniform (DEFAULT_SUCCESS_RESULT ++ rest) :=
  ⟨true, CODES.SUCCESS, by simp [Result.get?, DEFAULT_SUCCESS_RESULT],
    by simp [Result.get?, DEFAULT_SUCCESS_RESULT], by simp, by simp⟩

theorem update_uniform (w : World) (id : Nat) (name : String) (permissions : Permissions) :
    ∃ r, (update id name permissions w).1 = .ok r ∧ r.uniform := by
  by_cases h0 : w.fails w.log.length = true <;>
  by_cases h1 : w.fails (w.log.length + 1) = true <;>
  cases hf : (w.db.findByPk .groups id none).isSome <;>
  simp [update, tryCatch, existsById, Model.findByPk, Model.update, persist, bind, Async.bind,
    pure, Async.pure, h0, h1, hf] <;>
  first
    | exact uniform_failure _ _ (by simp)
    | exact uniform_success []

theorem delete_uniform (w : World) (id : Nat) : ∃ r, (delete id w).1 = .ok r ∧ r.uniform := by
  by_cases h0 : w.fails w.log.length = true <;>
  by_cases h1 : w.fails (w.log.length + 1) = true <;>
  by_cases h2 : w.fails (w.log.length + 2) = true <;>
  by_cases h3 : w.fails (w.log.length + 3) = true <;>
  by_cases h4 : w.fails (w.log.length + 4) = true <;>
  by_cases h5 : w.fails (w.log.length + 5) = true <;>
  cases hf : (w.db.findByPk .groups id none).isSome <;>
  simp [delete, tryCatch, existsById, Model.findByPk, sequelize.transaction, Model.destroy,
    Transaction.commit, Transaction.rollback, persist, bind, Async.bind, pure, Async.pure, h0, h1,
    h2, h3, h4, h5, hf] <;>
  first
    | exact uniform_failure _ _ (by simp)
    | exact uniform_success []

theorem addUserToGroup_uniform (w : World) (userId groupId : Nat) :
    ∃ r, (addUserToGroup userId groupId w).1 = .ok r ∧ r.uniform := by
  by_cases h0 : w.fails w.log.length = true <;>
  by_cases h1 : w.fails (w.log.length + 1) = true <;>
  by_cases h2 : w.fails (w.log.length + 2) = true <;>
  by_cases h3 : w.fails (w.log.length + 3) = true <;>
  cases hu : (w.db.findByPk .users userId none).isSome <;>
  cases hg : (w.db.findByPk .groups groupId none).isSome <;>
  cases hl : (w.db.findOne .userGroup
    ({ userId := some userId, groupId := some groupId } : RelationWhere)).isSome <;>
  simp [addUserToGroup, tryCatch, existsById, existsByParams, Model.findByPk, Model.findOne,
    Model.create, persist, bind, Async.bind, pure, Async.pure, h0, h1, h2, h3, hu, hg, hl] <;>
  first
    | exact uniform_failure _ _ (by simp)
    | exact uniform_success []

theorem getById_uniform (w : World) (id : Nat) : ∃ r, (getById id w).1 = .ok r ∧ r.uniform := by
  by_cases h0 : w.fails w.log.length = true <;>
  cases hf : w.db.findByPk .groups id (some { includes :=
    [{ as := "users", required := false, attributes := ["login", "age", "id"] }] }) <;>
  simp [getById, tryCatch, existsById, Model.findByPk, persist, bind, Async.bind, pure,
    Async.pure, h0, hf] <;>
  first
    | exact uniform_failure _ _ (by simp)
    | exact uniform_success _

theorem get_uniform (w : World) : ∃ r, (get w).1 = .ok r ∧ r.uniform := by
  by_cases h0 : w.fails w.log.length = true <;>
  simp [get, tryCatch, Model.findAll, persist, bind, Async.bind, pure, Async.pure, h0] <;>
  first
    | exact uniform_failure _ _ (by simp)
    | exact uniform_success _

theorem add_uniform_or_malformed (w : World) (name : String) (permissions : Permissions) :
    (∃ r, (add name permissions w).1 = .ok r ∧ r.uniform) ∨
      ∃ g, (add name permissions w).1 =
        .ok [("DEFAULT_SUCCESS_RESULT", .object DEFAULT_SUCCESS_RESULT), ("data", .group g)] := by
  by_cases h0 : w.fails w.log.length = true <;>
  by_cases h1 : w.fails (w.log.length + 1) = true <;>
  cases hf : (w.db.findOne .groups ({ name := some name } : GroupWhere)).isSome <;>
  simp [add, tryCatch, existsByParams, Model.findOne, Model.create, persist, bind, Async.bind,
    pure, Async.pure, h0, h1, hf] <;>
  exact uniform_failure _ _ (by simp)

/-- Apart from the success record of `add`, every operation, on every world
and input and under every fault schedule, returns without throwing a record
of the uniform shape. -/
theorem results_uniform_apart_from_add (w : World) :
    (∀ name permissions, (∃ r, (add name permissions w).1 = .ok r ∧ r.uniform) ∨
      ∃ g, (add name permissions w).1 =
        .ok [("DEFAULT_SUCCESS_RESULT", .object DEFAULT_SUCCESS_RESULT), ("data", .group g)]) ∧
    (∀ id name permissions, ∃ r, (update id name permissions w).1 = .ok r ∧ r.uniform) ∧
    (∀ id, ∃ r, (delete id w).1 = .ok r ∧ r.uniform) ∧
    (∀ userId groupId, ∃ r, (addUserToGroup userId groupId w).1 = .ok r ∧ r.uniform) ∧
    (∀ id, ∃ r, (getById id w).1 = .ok r ∧ r.uniform) ∧
    (∃ r, (get w).1 = .ok r ∧ r.uniform) :=
  ⟨add_uniform_or_malformed w, update_uniform w, delete_uniform w, addUserToGroup_uniform w,
    getById_uniform w, get_uniform w⟩

/-- Name uniqueness is kept by every operation other than `update`, under
every fault schedule. -/
theorem uniqueNames_preserved_apart_from_update (w : World) (h : w.db.uniqueNames) :
    (∀ name permissions, (add name permissions w).2.db.uniqueNames) ∧
    (∀ id, (delete id w).2.db.uniqueNames) ∧
    (∀ userId groupId, (addUserToGroup userId groupId w).2.db.uniqueNames) ∧
    (∀ id, (getById id w).2.db.uniqueNames) ∧
    (get w).2.db.uniqueNames := by
  refine ⟨?_, ?_, ?_, ?_, ?_⟩
  · intro name permissions
    rcases add_db w name permissions with h1 | ⟨hfresh, h1⟩ <;> rw [h1]
    · exact h
    · exact uniqueNames_insert_group w.db ⟨w.db.nextId, name, permissions⟩ _ h hfresh
  · intro id
    rcases delete_db w id with h1 | h1 <;> rw [h1]
    · exact h
    · exact uniqueNames_destroy w.db id h
  · intro userId groupId
    rcases addUserToGroup_db w userId groupId with h1 | ⟨_, h1⟩ <;> rw [h1]
    · exact h
    · exact h
  · intro id
    rw [getById_db]; exact h
  · rw [get_db]; exact h

/-- Under the query of `get`, every loaded user shows `login`, `age` and `id`
and no join-table object. -/
theorem loadUsers_hides_relation (s : Store) (g : Group) (v : UserView)
    (hv : v ∈ loadUsers s
      { as := "users", required := false, attributes := ["login", "age", "id"],
        through := some { attributes := [] } } g) :
    v.userGroupRelations = none ∧ v.login.isSome = true ∧ v.age.isSome = true ∧
      v.id.isSome = true := by
  simp only [loadUsers, List.mem_flatMap, List.mem_map] at hv
  obtain ⟨r, _, u, _, rfl⟩ := hv
  simp [project]

theorem findAll_groups (s : Store) (inc : Include) (hreq : inc.required = false) :
    s.findAll .groups { includes := [inc] } =
      s.groups.map (fun g =>
        { id := g.id, name := g.name, permissions := g.permissions
          users := some (loadUsers s inc g) }) := by
  have hvis : ∀ g : Group, Model.visible s .groups (some { includes := [inc] }) g = true := by
    intro g; simp [Model.visible, firstInclude, hreq]
  have hkeep : s.groups.filter (Model.visible s .groups (some { includes := [inc] })) = s.groups :=
    List.filter_eq_self.2 (fun g _ => hvis g)
  unfold Store.findAll
  show List.map _ (List.filter _ s.groups) = _
  rw [hkeep]
  apply List.map_congr_left
  intro g _
  simp [Model.load, firstInclude]

/-- Without persistence failure `get` returns the success record with one
entry per group row, in order, each with its users loaded under the query
that excludes the join-table attributes. -/
theorem get_run (w : World) (hno : w.faultFree) :
    get w =
      (.ok [("success", .bool true), ("code", .str CODES.SUCCESS),
          ("data", .groups (w.db.groups.map (fun g =>
            { id := g.id, name := g.name, permissions := g.permissions
              users := some (loadUsers w.db
                { as := "users", required := false, attributes := ["login", "age", "id"],
                  through := some { attributes := [] } } g) })))],
        { w with log := w.log ++ [⟨.findAll .groups
          { includes :=
            [{ as := "users", required := false, attributes := ["login", "age", "id"],
               through := some { attributes := [] } }] }, false⟩] }) := by
  simp [get, tryCatch, Model.findAll, findAll_groups, DEFAULT_SUCCESS_RESULT, persist, bind,
    Async.bind, pure, Async.pure, hno _]

theorem getById_existing (w : World) (id : Nat) (hno : w.faultFree) (hex : w.db.hasGroup id) :
    ∃ g : Group, g ∈ w.db.groups ∧ g.id = id ∧
      (getById id w).1 =
        .ok [("success", .bool true), ("code", .str CODES.SUCCESS),
          ("data", .group
            { id := g.id, name := g.name, permissions := g.permissions
              users := some (loadUsers w.db
                { as := "users", required := false, attributes := ["login", "age", "id"] } g) })] := by
  have h1 := (findByPk_include_isSome w.db id
    { as := "users", required := false, attributes := ["login", "age", "id"] } rfl).2 hex
  obtain ⟨inst, hinst⟩ := Option.isSome_iff_exists.1 h1
  have hfind := hinst
  simp only [Store.findByPk, Store.table, Option.map_eq_some'] at hfind
  obtain ⟨g, hg, hload⟩ := hfind
  have hmem := List.mem_of_find?_eq_some hg
  have hp := List.find?_some hg
  refine ⟨g, hmem, ?_, ?_⟩
  · simpa [Model.hasKey, Model.visible, firstInclude] using hp
  · subst hload
    simp [getById, tryCatch, existsById, Model.findByPk, persist, bind, Async.bind, pure,
      Async.pure, hno _, hinst, DEFAULT_SUCCESS_RESULT, Model.load, firstInclude]

/-! ## The claims -/

/-- C1, at a failing input: on an empty store without persistence failure,
`add` of the unused name "Admins" returns a record that has no `success` key
and no `code` key; the success constant sits under the key
`DEFAULT_SUCCESS_RESULT` next to `data`, which holds the created group. -/
theorem add_success_record_malformed :
    ∃ r, (add "Admins" ["READ"] emptyWorld).1 = .ok r ∧
      r.get? "success" = none ∧ r.get? "code" = none ∧
      r.get? "DEFAULT_SUCCESS_RESULT"
        = some (.object [("success", .bool true), ("code", .str "SUCCESS")]) ∧
      r.get? "data" = some (.group { id := 1, name := "Admins", permissions := ["READ"] }) :=
  ⟨_, rfl, rfl, rfl, rfl, rfl⟩

/-- C2: when some group already carries the name, `add` without persistence
failure returns the BAD_DATA record with message "Name exists", leaves the
committed store as it was, and the only persistence call it issues is the
name lookup (no `create`). -/
theorem add_existing_name_rejected (w : World) (name : String) (permissions : Permissions)
    (hno : w.faultFree) (hex : w.db.hasName name) :
    (add name permissions w).1 =
        .ok [("success", .bool false), ("code", .str CODES.BAD_DATA),
          ("message", .str "Name exists")] ∧
      (add name permissions w).2.db = w.db ∧
      newEvents w (add name permissions w).2 =
        [⟨.findOne .groups ({ name := some name } : GroupWhere), false⟩] := by
  rw [add_existing_run w name permissions hno hex]
  simp [newEvents]

theorem add_existing_name_rejected_witness :
    sampleWorld.faultFree ∧ sampleWorld.db.hasName "Admins" ∧
      (add "Admins" [] sampleWorld).1 =
        .ok [("success", .bool false), ("code", .str CODES.BAD_DATA),
          ("message", .str "Name exists")] ∧
      (add "Admins" [] sampleWorld).2.db = sampleWorld.db ∧
      newEvents sampleWorld (add "Admins" [] sampleWorld).2 =
        [⟨.findOne .groups ({ name := some "Admins" } : GroupWhere), false⟩] :=
  ⟨fun _ => rfl, by decide,
    add_existing_name_rejected sampleWorld "Admins" [] (fun _ => rfl) (by decide)⟩

/-- C3: without persistence failure `addUserToGroup` splits on (user exists,
group exists): user present and group missing gives NOT_FOUND "Group not
found"; group present and user missing gives NOT_FOUND "User not found"; both
missing gives NOT_FOUND with the one message "User and Group not found"; in
these three cases the committed store is unchanged and only the two key
lookups are issued.  The relation lookup is issued exactly when both exist. -/
theorem addUserToGroup_case_split (w : World) (userId groupId : Nat) (hno : w.faultFree) :
    (w.db.hasUser userId ∧ ¬ w.db.hasGroup groupId →
      (addUserToGroup userId groupId w).1 =
        .ok [("success", .bool false), ("code", .str CODES.NOT_FOUND),
          ("message", .str "Group not found")]) ∧
    (¬ w.db.hasUser userId ∧ w.db.hasGroup groupId →
      (addUserToGroup userId groupId w).1 =
        .ok [("success", .bool false), ("code", .str CODES.NOT_FOUND),
          ("message", .str "User not found")]) ∧
    (¬ w.db.hasUser userId ∧ ¬ w.db.hasGroup groupId →
      (addUserToGroup userId groupId w).1 =
        .ok [("success", .bool false), ("code", .str CODES.NOT_FOUND),
          ("message", .str "User and Group not found")]) ∧
    (¬ (w.db.hasUser userId ∧ w.db.hasGroup groupId) →
      (addUserToGroup userId groupId w).2.db = w.db ∧
      newEvents w (addUserToGroup userId groupId w).2 =
        [⟨.findByPk .users userId none, false⟩, ⟨.findByPk .groups groupId none, false⟩]) ∧
    ((∃ e ∈ newEvents w (addUserToGroup userId groupId w).2,
        e.call = .findOne .userGroup
          ({ userId := some userId, groupId := some groupId } : RelationWhere)) ↔
      (w.db.hasUser userId ∧ w.db.hasGroup groupId)) := by
  refine ⟨?_, ?_, ?_, ?_, ?_⟩
  · rintro ⟨hu, hg⟩
    rw [addUserToGroup_missing_run w userId groupId hno (fun h => hg h.2)]
    simp [hu]
  · rintro ⟨hu, hg⟩
    rw [addUserToGroup_missing_run w userId groupId hno (fun h => hu h.1)]
    simp [hu, hg]
  · rintro ⟨hu, hg⟩
    rw [addUserToGroup_missing_run w userId groupId hno (fun h => hu h.1)]
    simp [hu, hg]
  · intro h
    rw [addUserToGroup_missing_run w userId groupId hno h]
    simp [newEvents]
  · by_cases hb : w.db.hasUser userId ∧ w.db.hasGroup groupId
    · by_cases hl : w.db.linked userId groupId
      · rw [addUserToGroup_linked_run w userId groupId hno hb.1 hb.2 hl]
        simp [newEvents, hb]
      · rw [addUserToGroup_fresh_run w userId groupId hno hb.1 hb.2 hl]
        simp [newEvents, hb]
    · rw [addUserToGroup_missing_run w userId groupId hno hb]
      simp [newEvents, hb]

theorem addUserToGroup_case_split_witness :
    sampleWorld.faultFree ∧
      (addUserToGroup 7 99 sampleWorld).1 =
        .ok [("success", .bool false), ("code", .str CODES.NOT_FOUND),
          ("message", .str "Group not found")] ∧
      (addUserToGroup 99 1 sampleWorld).1 =
        .ok [("success", .bool false), ("code", .str CODES.NOT_FOUND),
          ("message", .str "User not found")] ∧
      (addUserToGroup 98 99 sampleWorld).1 =
        .ok [("success", .bool false), ("code", .str CODES.NOT_FOUND),
          ("message", .str "User and Group not found")] ∧
      (addUserToGroup 98 99 sampleWorld).2.db = sampleWorld.db :=
  ⟨fun _ => rfl,
    (addUserToGroup_case_split sampleWorld 7 99 (fun _ => rfl)).1 ⟨by decide, by decide⟩,
    (addUserToGroup_case_split sampleWorld 99 1 (fun _ => rfl)).2.1 ⟨by decide, by decide⟩,
    (addUserToGroup_case_split sampleWorld 98 99 (fun _ => rfl)).2.2.1 ⟨by decide, by decide⟩,
    ((addUserToGroup_case_split sampleWorld 98 99 (fun _ => rfl)).2.2.2.1 (by decide)).1⟩

/-- C4: when user and group both exist and are not yet linked, and no
persistence call fails, `addUserToGroup` returns the success record and
appends exactly the relation row of the pair, leaving groups and users alone;
the same call repeated at once returns BAD_DATA "User is in group already"
and leaves the committed store unchanged, so the pair occurs exactly once
among the relation rows. -/
theorem addUserToGroup_links_once (w : World) (userId groupId : Nat) (hno : w.faultFree)
    (hu : w.db.hasUser userId) (hg : w.db.hasGroup groupId)
    (hl : ¬ w.db.linked userId groupId) :
    (addUserToGroup userId groupId w).1 =
        .ok [("success", .bool true), ("code", .str CODES.SUCCESS)] ∧
      (addUserToGroup userId groupId w).2.db =
        { w.db with userGroup := w.db.userGroup ++ [⟨userId, groupId⟩] } ∧
      (addUserToGroup userId groupId (addUserToGroup userId groupId w).2).1 =
        .ok [("success", .bool false), ("code", .str CODES.BAD_DATA),
          ("message", .str "User is in group already")] ∧
      (addUserToGroup userId groupId (addUserToGroup userId groupId w).2).2.db =
        (addUserToGroup userId groupId w).2.db ∧
      (addUserToGroup userId groupId (addUserToGroup userId groupId w).2).2.db.userGroup.count
        ⟨userId, groupId⟩ = 1 := by
  have hcount : w.db.userGroup.count ⟨userId, groupId⟩ = 0 :=
    List.count_eq_zero.2 (fun hmem => hl ⟨_, hmem, rfl, rfl⟩)
  obtain ⟨w1, hrun, hdb, hfails⟩ : ∃ w1 : World,
      addUserToGroup userId groupId w = (.ok DEFAULT_SUCCESS_RESULT, w1) ∧
      w1.db = { w.db with userGroup := w.db.userGroup ++ [⟨userId, groupId⟩] } ∧
      w1.fails = w.fails :=
    ⟨_, addUserToGroup_fresh_run w userId groupId hno hu hg hl, rfl, rfl⟩
  have hno1 : w1.faultFree := fun k => by rw [hfails]; exact hno k
  have hu1 : w1.db.hasUser userId := by rw [hdb]; exact hu
  have hg1 : w1.db.hasGroup groupId := by rw [hdb]; exact hg
  have hl1 : w1.db.linked userId groupId := by
    rw [hdb]; exact ⟨⟨userId, groupId⟩, by simp, rfl, rfl⟩
  rw [hrun]
  rw [addUserToGroup_linked_run w1 userId groupId hno1 hu1 hg1 hl1]
  simp [DEFAULT_SUCCESS_RESULT, hdb, hcount]

theorem addUserToGroup_links_once_witness :
    sampleWorld.faultFree ∧ sampleWorld.db.hasUser 8 ∧ sampleWorld.db.hasGroup 2 ∧
      ¬ sampleWorld.db.linked 8 2 ∧
      (addUserToGroup 8 2 sampleWorld).1 =
        .ok [("success", .bool true), ("code", .str CODES.SUCCESS)] ∧
      (addUserToGroup 8 2 sampleWorld).2.db =
        { sampleWorld.db with userGroup := sampleWorld.db.userGroup ++ [⟨8, 2⟩] } ∧
      (addUserToGroup 8 2 (addUserToGroup 8 2 sampleWorld).2).1 =
        .ok [("success", .bool false), ("code", .str CODES.BAD_DATA),
          ("message", .str "User is in group already")] ∧
      (addUserToGroup 8 2 (addUserToGroup 8 2 sampleWorld).2).2.db =
        (addUserToGroup 8 2 sampleWorld).2.db ∧
      (addUserToGroup 8 2 (addUserToGroup 8 2 sampleWorld).2).2.db.userGroup.count ⟨8, 2⟩ = 1 :=
  ⟨fun _ => rfl, by decide, by decide, by decide,
    addUserToGroup_links_once sampleWorld 8 2 (fun _ => rfl) (by decide) (by decide) (by decide)⟩

/-- C5: for the id of an existing group and no persistence failure, `delete`
returns the success record; afterwards the committed store has no group row
with that id and no relation row with that groupId, every other group and
relation row is kept in place, the users are untouched, and `getById` of the
id on the resulting world returns NOT_FOUND. -/
theorem delete_removes_group_and_relations (w : World) (id : Nat) (hno : w.faultFree)
    (hex : w.db.hasGroup id) :
    (delete id w).1 = .ok [("success", .bool true), ("code", .str CODES.SUCCESS)] ∧
      ¬ (delete id w).2.db.hasGroup id ∧
      (∀ r ∈ (delete id w).2.db.userGroup, r.groupId ≠ id) ∧
      (delete id w).2.db.groups = w.db.groups.filter (fun g => decide (g.id ≠ id)) ∧
      (delete id w).2.db.userGroup = w.db.userGroup.filter (fun r => decide (r.groupId ≠ id)) ∧
      (delete id w).2.db.users = w.db.users ∧
      (getById id (delete id w).2).1 =
        .ok [("success", .bool false), ("code", .str CODES.NOT_FOUND),
          ("message", .str "Group not found")] := by
  have hgone : ¬ (delete id w).2.db.hasGroup id := by
    rw [delete_existing_run w id hno hex]
    simp [Store.hasGroup]
  refine ⟨?_, hgone, ?_, ?_, ?_, ?_, ?_⟩
  · rw [delete_existing_run w id hno hex]; rfl
  · rw [delete_existing_run w id hno hex]; simp
  · rw [delete_existing_run w id hno hex]; simp
  · rw [delete_existing_run w id hno hex]; simp
  · rw [delete_existing_run w id hno hex]
  · rw [getById_missing_run _ id ?_ hgone]
    rw [delete_existing_run w id hno hex]
    exact fun k => hno k

theorem delete_removes_group_and_relations_witness :
    sampleWorld.faultFree ∧ sampleWorld.db.hasGroup 1 ∧
      (delete 1 sampleWorld).1 = .ok [("success", .bool true), ("code", .str CODES.SUCCESS)] ∧
      ¬ (delete 1 sampleWorld).2.db.hasGroup 1 ∧
      (∀ r ∈ (delete 1 sampleWorld).2.db.userGroup, r.groupId ≠ 1) ∧
      (delete 1 sampleWorld).2.db.groups =
        sampleWorld.db.groups.filter (fun g => decide (g.id ≠ 1)) ∧
      (delete 1 sampleWorld).2.db.userGroup =
        sampleWorld.db.userGroup.filter (fun r => decide (r.groupId ≠ 1)) ∧
      (delete 1 sampleWorld).2.db.users = sampleWorld.db.users ∧
      (getById 1 (delete 1 sampleWorld).2).1 =
        .ok [("success", .bool false), ("code", .str CODES.NOT_FOUND),
          ("message", .str "Group not found")] :=
  ⟨fun _ => rfl, by decide,
    delete_removes_group_and_relations sampleWorld 1 (fun _ => rfl) (by decide)⟩

/-- C6: for `add`, `update`, `delete` and `addUserToGroup`, on every world and
input, if some persistence call of the run failed then the run does not
throw, returns the SOMETHING_WENT_WRONG record, and the committed store is
the one before the call.  For `delete` in particular, when the group-row
destroy went through and the relation-row destroy then failed, the
transaction rollback is issued and the committed store is unchanged. -/
theorem persistence_failure_contained (w : World) :
    (∀ name permissions, (∃ e ∈ newEvents w (add name permissions w).2, e.failed = true) →
      (add name permissions w).1 = .ok wentWrong ∧ (add name permissions w).2.db = w.db) ∧
    (∀ id name permissions,
      (∃ e ∈ newEvents w (update id name permissions w).2, e.failed = true) →
      (update id name permissions w).1 = .ok wentWrong ∧
        (update id name permissions w).2.db = w.db) ∧
    (∀ id, (∃ e ∈ newEvents w (delete id w).2, e.failed = true) →
      (delete id w).1 = .ok wentWrong ∧ (delete id w).2.db = w.db) ∧
    (∀ userId groupId,
      (∃ e ∈ newEvents w (addUserToGroup userId groupId w).2, e.failed = true) →
      (addUserToGroup userId groupId w).1 = .ok wentWrong ∧
        (addUserToGroup userId groupId w).2.db = w.db) ∧
    (∀ id, w.db.hasGroup id → w.fails w.log.length = false →
      w.fails (w.log.length + 1) = false → w.fails (w.log.length + 2) = false →
      w.fails (w.log.length + 3) = true →
      (delete id w).1 = .ok wentWrong ∧ (delete id w).2.db = w.db ∧
        ∃ e ∈ newEvents w (delete id w).2, e.call = .rollback) :=
  ⟨fun name permissions h => add_fault w name permissions h,
    fun id name permissions h => update_fault w id name permissions h,
    fun id h => delete_fault w id h,
    fun userId groupId h => addUserToGroup_fault w userId groupId h,
    fun id hex h0 h1 h2 h3 => delete_rollback w id hex h0 h1 h2 h3⟩

theorem persistence_failure_contained_witness :
    (∃ e ∈ newEvents (faultyWorld 3) (delete 1 (faultyWorld 3)).2, e.failed = true) ∧
      (delete 1 (faultyWorld 3)).1 = .ok wentWrong ∧
      (delete 1 (faultyWorld 3)).2.db = (faultyWorld 3).db ∧
      (∃ e ∈ newEvents (faultyWorld 1) (add "Editors" [] (faultyWorld 1)).2, e.failed = true) ∧
      (add "Editors" [] (faultyWorld 1)).1 = .ok wentWrong ∧
      (add "Editors" [] (faultyWorld 1)).2.db = (faultyWorld 1).db :=
  ⟨List.any_eq_true.1 (by decide),
    ((persistence_failure_contained (faultyWorld 3)).2.2.1 1
      (List.any_eq_true.1 (by decide))).1,
    ((persistence_failure_contained (faultyWorld 3)).2.2.2.2 1 (by decide) rfl rfl rfl rfl).2.1,
    List.any_eq_true.1 (by decide),
    (persistence_failure_contained (faultyWorld 1)).1 "Editors" []
      (List.any_eq_true.1 (by decide))⟩

/-- C7, at a failing input: in a store whose two groups have different
names, `update` of group 2 to the name of group 1 succeeds without any name
check and leaves two group rows named "Admins". -/
theorem update_duplicates_name :
    sampleWorld.db.uniqueNames ∧
      (update 2 "Admins" ["READ"] sampleWorld).1 =
        .ok [("success", .bool true), ("code", .str "SUCCESS")] ∧
      (update 2 "Admins" ["READ"] sampleWorld).2.db.groups =
        [⟨1, "Admins", ["READ", "WRITE"]⟩, ⟨2, "Admins", ["READ"]⟩] ∧
      ¬ (update 2 "Admins" ["READ"] sampleWorld).2.db.uniqueNames :=
  ⟨by decide, rfl, rfl, by decide⟩

/-- C8: for an id no group row has and no persistence failure, `update`,
`delete` and `getById` each return the NOT_FOUND record with success false;
`update` and `delete` leave the committed store and the transaction state as
they were, and every persistence call they issue is a read (no update, no
destroy, no transaction opened). -/
theorem missing_group_not_found (w : World) (id : Nat) (name : String)
    (permissions : Permissions) (hno : w.faultFree) (hmiss : ¬ w.db.hasGroup id) :
    ((update id name permissions w).1 =
        .ok [("success", .bool false), ("code", .str CODES.NOT_FOUND),
          ("message", .str "Group not found")] ∧
      (update id name permissions w).2.db = w.db ∧
      (update id name permissions w).2.tx = w.tx ∧
      ∀ e ∈ newEvents w (update id name permissions w).2, e.call.isWrite = false) ∧
    ((delete id w).1 =
        .ok [("success", .bool false), ("code", .str CODES.NOT_FOUND),
          ("message", .str "Groups not found")] ∧
      (delete id w).2.db = w.db ∧
      (delete id w).2.tx = w.tx ∧
      ∀ e ∈ newEvents w (delete id w).2, e.call.isWrite = false) ∧
    ((getById id w).1 =
        .ok [("success", .bool false), ("code", .str CODES.NOT_FOUND),
          ("message", .str "Group not found")] ∧
      (getById id w).2.db = w.db) := by
  rw [update_missing_run w id name permissions hno hmiss, delete_missing_run w id hno hmiss,
    getById_missing_run w id hno hmiss]
  simp [newEvents, Call.isWrite]

theorem missing_group_not_found_witness :
    sampleWorld.faultFree ∧ ¬ sampleWorld.db.hasGroup 99 ∧
      (update 99 "Editors" [] sampleWorld).1 =
        .ok [("success", .bool false), ("code", .str CODES.NOT_FOUND),
          ("message", .str "Group not found")] ∧
      (delete 99 sampleWorld).1 =
        .ok [("success", .bool false), ("code", .str CODES.NOT_FOUND),
          ("message", .str "Groups not found")] ∧
      (getById 99 sampleWorld).1 =
        .ok [("success", .bool false), ("code", .str CODES.NOT_FOUND),
          ("message", .str "Group not found")] :=
  ⟨fun _ => rfl, by decide,
    (missing_group_not_found sampleWorld 99 "Editors" [] (fun _ => rfl) (by decide)).1.1,
    (missing_group_not_found sampleWorld 99 "Editors" [] (fun _ => rfl) (by decide)).2.1.1,
    (missing_group_not_found sampleWorld 99 "Editors" [] (fun _ => rfl) (by decide)).2.2.1⟩

/-- C9, at a failing input: `getById` of an existing, linked group issues its
key lookup with a users association that carries no `through` option, and
the user it returns carries the join-table object `userGroupRelations`;
`get`, on the same world, passes empty through-attributes and returns the
same user without it. -/
theorem getById_loads_relation_attributes :
    newEvents sampleWorld (getById 1 sampleWorld).2 =
        [⟨.findByPk .groups 1 (some { includes :=
          [{ as := "users", required := false, attributes := ["login", "age", "id"],
             through := none }] }), false⟩] ∧
      (getById 1 sampleWorld).1 =
        .ok [("success", .bool true), ("code", .str "SUCCESS"),
          ("data", .group
            { id := 1, name := "Admins", permissions := ["READ", "WRITE"]
              users := some [{ login := some "bob", age := some 30, id := some 7
                               userGroupRelations :=
                                 some { userId := some 7, groupId := some 1 } }] })] ∧
      newEvents sampleWorld (get sampleWorld).2 =
        [⟨.findAll .groups { includes :=
          [{ as := "users", required := false, attributes := ["login", "age", "id"],
             through := some { attributes := [] } }] }, false⟩] ∧
      (get sampleWorld).1 =
        .ok [("success", .bool true), ("code", .str "SUCCESS"),
          ("data", .groups
            [{ id := 1, name := "Admins", permissions := ["READ", "WRITE"]
               users := some [{ login := some "bob", age := some 30, id := some 7
                                userGroupRelations := none }] },
             { id := 2, name := "Guests", permissions := ["READ"], users := some [] }])] :=
  ⟨rfl, rfl, rfl, rfl⟩

/-- C10: if every relation row of the committed store points to an existing
group, then after any call of `add`, `update`, `delete`, `addUserToGroup`,
`getById` or `get`, with any arguments and under any fault schedule, every
relation row of the committed store still points to an existing group. -/
theorem referential_integrity_preserved (w : World) (h : w.db.referential) :
    (∀ name permissions, (add name permissions w).2.db.referential) ∧
    (∀ id name permissions, (update id name permissions w).2.db.referential) ∧
    (∀ id, (delete id w).2.db.referential) ∧
    (∀ userId groupId, (addUserToGroup userId groupId w).2.db.referential) ∧
    (∀ id, (getById id w).2.db.referential) ∧
    (get w).2.db.referential := by
  refine ⟨?_, ?_, ?_, ?_, ?_, ?_⟩
  · intro name permissions
    rcases add_db w name permissions with h1 | ⟨_, h1⟩ <;> rw [h1]
    · exact h
    · exact referential_insert_group w.db _ _ h
  · intro id name permissions
    rcases update_db w id name permissions with h1 | h1 <;> rw [h1]
    · exact h
    · exact referential_assign w.db id name permissions h
  · intro id
    rcases delete_db w id with h1 | h1 <;> rw [h1]
    · exact h
    · exact referential_destroy w.db id h
  · intro userId groupId
    rcases addUserToGroup_db w userId groupId with h1 | ⟨hg, h1⟩ <;> rw [h1]
    · exact h
    · exact referential_link w.db userId groupId h hg
  · intro id
    rw [getById_db]; exact h
  · rw [get_db]; exact h

theorem referential_integrity_preserved_witness :
    sampleWorld.db.referential ∧
      (delete 1 sampleWorld).2.db.referential ∧
      (addUserToGroup 8 2 sampleWorld).2.db.referential ∧
      (delete 1 (faultyWorld 3)).2.db.referential :=
  ⟨by decide,
    (referential_integrity_preserved sampleWorld (by decide)).2.2.1 1,
    (referential_integrity_preserved sampleWorld (by decide)).2.2.2.1 8 2,
    (referential_integrity_preserved (faultyWorld 3) (by decide)).2.2.1 1⟩

end GroupsService
